import Mathlib

/-!
Verification development for the browser-automation task orchestrator.

The Python modules `agents.py`, `automation_utils.py`, `automation_configs.py`
and `vnc_manager.py` are shallowly embedded below: dictionaries become
insertion-ordered association lists, `datetime` values become integer clock
readings supplied by the caller, float durations become rationals, and code
that can raise returns `Except`.  Injected collaborators (the executor
outcome, the random samples, the hash function, process probe/spawn results)
are explicit parameters.
-/

namespace AiAgent

/-! ## Association lists modeling Python dicts

Python dictionaries preserve insertion order; assigning to an existing key
updates the value in place, assigning a fresh key appends. -/

/-- Lookup in an insertion-ordered association list (Python `d[k]` / `k in d`). -/
def getA {α : Type} : List (String × α) → String → Option α
  | [], _ => none
  | (k, v) :: rest, key => if k = key then some v else getA rest key

/-- Assignment `d[key] = v`: update in place when the key exists, else append. -/
def setA {α : Type} : List (String × α) → String → α → List (String × α)
  | [], key, v => [(key, v)]
  | (k, w) :: rest, key, v =>
    if k = key then (k, v) :: rest else (k, w) :: setA rest key v

/-- Deletion `del d[key]` (used for cache-file `unlink`). -/
def delA {α : Type} : List (String × α) → String → List (String × α)
  | [], _ => []
  | (k, w) :: rest, key => if k = key then rest else (k, w) :: delA rest key

/-- In-place mutation of the value stored at `key`, when present. -/
def updA {α : Type} : List (String × α) → String → (α → α) → List (String × α)
  | [], _, _ => []
  | (k, w) :: rest, key, f =>
    if k = key then (k, f w) :: rest else (k, w) :: updA rest key f

theorem getA_setA_self {α : Type} (l : List (String × α)) (k : String) (v : α) :
    getA (setA l k v) k = some v := by
  induction l with
  | nil => simp [getA, setA]
  | cons hd tl ih =>
    obtain ⟨k', w⟩ := hd
    by_cases h : k' = k <;> simp [getA, setA, h, ih]

theorem getA_setA_ne {α : Type} (l : List (String × α)) (k k' : String) (v : α)
    (h : k ≠ k') : getA (setA l k v) k' = getA l k' := by
  induction l with
  | nil => simp [getA, setA, h]
  | cons hd tl ih =>
    obtain ⟨k₀, w⟩ := hd
    by_cases h₀ : k₀ = k
    · subst h₀; simp [getA, setA, h]
    · simp [getA, setA, h₀, ih]

theorem getA_updA_self {α : Type} (l : List (String × α)) (k : String) (f : α → α) :
    getA (updA l k f) k = (getA l k).map f := by
  induction l with
  | nil => simp [getA, updA]
  | cons hd tl ih =>
    obtain ⟨k', w⟩ := hd
    by_cases h : k' = k <;> simp [getA, updA, h, ih]

theorem getA_updA_ne {α : Type} (l : List (String × α)) (k k' : String) (f : α → α)
    (h : k ≠ k') : getA (updA l k f) k' = getA l k' := by
  induction l with
  | nil => simp [getA, updA]
  | cons hd tl ih =>
    obtain ⟨k₀, w⟩ := hd
    by_cases h₀ : k₀ = k
    · subst h₀; simp [getA, updA, h]
    · simp [getA, updA, h₀, ih]

theorem getA_of_not_mem_keys {α : Type} (l : List (String × α)) (k : String)
    (h : k ∉ l.map Prod.fst) : getA l k = none := by
  induction l with
  | nil => rfl
  | cons hd tl ih =>
    obtain ⟨k₀, w⟩ := hd
    simp only [List.map_cons, List.mem_cons] at h
    push_neg at h
    have hne : ¬ k₀ = k := fun hh => h.1 hh.symm
    simp [getA, hne, ih h.2]

theorem getA_delA_self {α : Type} (l : List (String × α)) (k : String)
    (hnd : (l.map Prod.fst).Nodup) : getA (delA l k) k = none := by
  induction l with
  | nil => simp [getA, delA]
  | cons hd tl ih =>
    obtain ⟨k₀, w⟩ := hd
    simp only [List.map_cons, List.nodup_cons] at hnd
    by_cases h₀ : k₀ = k
    · subst h₀
      simp only [delA, if_pos rfl]
      exact getA_of_not_mem_keys tl k₀ hnd.1
    · simp [delA, h₀, getA, ih hnd.2]

/-! ## JSON-like configuration values

Configurations passed to the cache are nested Python dict/list/scalar
structures, embedded as `Config`.  Dict entries keep insertion order. -/

inductive Config where
  | str (s : String)
  | num (n : Int)
  | bool (b : Bool)
  | null
  | arr (items : List Config)
  | dict (entries : List (String × Config))

/-- Code-point lexicographic comparison of char lists — the order Python's
`sorted` uses on `str` keys. -/
def lexLeb : List Char → List Char → Bool
  | [], _ => true
  | _ :: _, [] => false
  | a :: as, b :: bs =>
    if a.toNat < b.toNat then true
    else if b.toNat < a.toNat then false
    else lexLeb as bs

def strLeb (a b : String) : Bool := lexLeb a.data b.data

theorem lexLeb_total : ∀ x y : List Char, lexLeb x y = true ∨ lexLeb y x = true
  | [], _ => Or.inl rfl
  | _ :: _, [] => Or.inr rfl
  | a :: as, b :: bs => by
    by_cases hab : a.toNat < b.toNat
    · left; simp [lexLeb, hab]
    · by_cases hba : b.toNat < a.toNat
      · right; simp [lexLeb, hba]
      · have h := lexLeb_total as bs
        simp only [lexLeb, if_neg hab, if_neg hba]
        exact h

theorem lexLeb_trans : ∀ x y z : List Char,
    lexLeb x y = true → lexLeb y z = true → lexLeb x z = true
  | [], _, _, _, _ => rfl
  | _ :: _, [], _, h, _ => by simp [lexLeb] at h
  | _ :: _, _ :: _, [], _, h => by simp [lexLeb] at h
  | a :: as, b :: bs, c :: cs, h₁, h₂ => by
    simp only [lexLeb] at h₁ h₂ ⊢
    by_cases hab : a.toNat < b.toNat
    · by_cases hbc : b.toNat < c.toNat
      · rw [if_pos (by omega)]
      · by_cases hcb : c.toNat < b.toNat
        · rw [if_neg hbc, if_pos hcb] at h₂; exact absurd h₂ (by simp)
        · rw [if_pos (by omega)]
    · by_cases hba : b.toNat < a.toNat
      · rw [if_neg hab, if_pos hba] at h₁; exact absurd h₁ (by simp)
      · by_cases hbc : b.toNat < c.toNat
        · rw [if_pos (by omega)]
        · by_cases hcb : c.toNat < b.toNat
          · rw [if_neg hbc, if_pos hcb] at h₂; exact absurd h₂ (by simp)
          · rw [if_neg hab, if_neg hba] at h₁
            rw [if_neg hbc, if_neg hcb] at h₂
            rw [if_neg (by omega), if_neg (by omega)]
            exact lexLeb_trans as bs cs h₁ h₂

theorem lexLeb_antisymm : ∀ x y : List Char,
    lexLeb x y = true → lexLeb y x = true → x = y
  | [], [], _, _ => rfl
  | [], _ :: _, _, h => by simp [lexLeb] at h
  | _ :: _, [], h, _ => by simp [lexLeb] at h
  | a :: as, b :: bs, h₁, h₂ => by
    simp only [lexLeb] at h₁ h₂
    by_cases hab : a.toNat < b.toNat
    · rw [if_neg (by omega), if_pos hab] at h₂; exact absurd h₂ (by simp)
    · by_cases hba : b.toNat < a.toNat
      · rw [if_neg hab, if_pos hba] at h₁; exact absurd h₁ (by simp)
      · rw [if_neg hab, if_neg hba] at h₁
        rw [if_neg hba, if_neg hab] at h₂
        have hn : a.toNat = b.toNat := by omega
        have hc : a = b := Char.ext (UInt32.toNat.inj hn)
        rw [hc, lexLeb_antisymm as bs h₁ h₂]

theorem strLeb_antisymm (a b : String) (h₁ : strLeb a b = true)
    (h₂ : strLeb b a = true) : a = b := by
  cases a with
  | mk da =>
    cases b with
    | mk db =>
      have := lexLeb_antisymm da db h₁ h₂
      rw [this]

/-- Sorting of dict entries by key, as done by `json.dumps(..., sort_keys=True)`.
Python's sort is stable; on the duplicate-free key lists of a dict any
comparison sort computes the same result, embedded here as insertion sort. -/
def sortPairs {α : Type} (l : List (String × α)) : List (String × α) :=
  l.insertionSort (fun a b => strLeb a.1 b.1 = true)

instance keyLeTotal {α : Type} :
    IsTotal (String × α) (fun a b => strLeb a.1 b.1 = true) :=
  ⟨fun a b => lexLeb_total a.1.data b.1.data⟩

instance keyLeTrans {α : Type} :
    IsTrans (String × α) (fun a b => strLeb a.1 b.1 = true) :=
  ⟨fun a b c h₁ h₂ => lexLeb_trans a.1.data b.1.data c.1.data h₁ h₂⟩

instance keyLtAntisymm {α : Type} :
    IsAntisymm (String × α) (fun a b => strLeb a.1 b.1 = true ∧ a.1 ≠ b.1) :=
  ⟨fun a b h₁ h₂ => absurd (strLeb_antisymm a.1 b.1 h₁.1 h₂.1) h₁.2⟩

/-- JSON string literal (escaping of quotes/backslashes inside the text is not
modeled; cache keys in this system never contain them). -/
def jstr (s : String) : String := "\"" ++ s ++ "\""

def joinComma (l : List String) : String := String.intercalate ", " l

def entryStr (p : String × String) : String := jstr p.1 ++ ": " ++ p.2

mutual
/-- Embedding of `json.dumps(config, sort_keys=True)`: at every dict node the
entries are serialized in key-sorted order (serializing each value first and
then sorting the resulting `(key, text)` pairs by key yields the same string,
since each value serializes independently of its siblings). -/
def dumps : Config → String
  | .str s => jstr s
  | .num n => toString n
  | .bool b => if b then "true" else "false"
  | .null => "null"
  | .arr items => "[" ++ joinComma (dumpsList items) ++ "]"
  | .dict entries =>
    "\x7b" ++ joinComma ((sortPairs (dumpsEntries entries)).map entryStr) ++ "\x7d"

def dumpsList : List Config → List String
  | [] => []
  | c :: cs => dumps c :: dumpsList cs

def dumpsEntries : List (String × Config) → List (String × String)
  | [] => []
  | (k, v) :: rest => (k, dumps v) :: dumpsEntries rest
end

mutual
/-- Canonical form of a configuration: every dict's entries sorted by key,
recursively.  Two configs are "equal as key-value structures regardless of
key insertion order" exactly when their canonical forms coincide. -/
def canon : Config → Config
  | .str s => .str s
  | .num n => .num n
  | .bool b => .bool b
  | .null => .null
  | .arr items => .arr (canonList items)
  | .dict entries => .dict (sortPairs (canonEntries entries))

def canonList : List Config → List Config
  | [] => []
  | c :: cs => canon c :: canonList cs

def canonEntries : List (String × Config) → List (String × Config)
  | [] => []
  | (k, v) :: rest => (k, canon v) :: canonEntries rest
end

/-- Equality of configurations as key-value structures, ignoring dict key
insertion order at every nesting depth. -/
def SameKV (c₁ c₂ : Config) : Prop := canon c₁ = canon c₂

theorem dumpsEntries_eq_map (l : List (String × Config)) :
    dumpsEntries l = l.map (fun p => (p.1, dumps p.2)) := by
  induction l with
  | nil => rfl
  | cons hd tl ih => obtain ⟨k, v⟩ := hd; simp [dumpsEntries, ih]

theorem canonEntries_eq_map (l : List (String × Config)) :
    canonEntries l = l.map (fun p => (p.1, canon p.2)) := by
  induction l with
  | nil => rfl
  | cons hd tl ih => obtain ⟨k, v⟩ := hd; simp [canonEntries, ih]

theorem sortPairs_map {α β : Type} (g : α → β) (l : List (String × α)) :
    sortPairs (l.map (fun p => (p.1, g p.2))) =
      (sortPairs l).map (fun p => (p.1, g p.2)) := by
  unfold sortPairs
  exact (List.map_insertionSort (fun (a b : String × α) => strLeb a.1 b.1 = true)
    (fun (a b : String × β) => strLeb a.1 b.1 = true) (fun p => (p.1, g p.2)) l
    (fun _ _ _ _ => Iff.rfl)).symm

theorem sortPairs_idem {α : Type} (l : List (String × α)) :
    sortPairs (sortPairs l) = sortPairs l :=
  (List.sorted_insertionSort _ l).insertionSort_eq

mutual
theorem dumps_canon : (c : Config) → dumps (canon c) = dumps c
  | .str s => rfl
  | .num n => rfl
  | .bool b => rfl
  | .null => rfl
  | .arr items => by
    simp only [canon, dumps, dumpsList_canonList items]
  | .dict entries => by
    simp only [canon, dumps]
    have h₁ : dumpsEntries (sortPairs (canonEntries entries)) =
        sortPairs (dumpsEntries (canonEntries entries)) := by
      rw [dumpsEntries_eq_map, ← sortPairs_map, ← dumpsEntries_eq_map]
    rw [h₁, dumpsEntries_canonEntries entries, sortPairs_idem]

theorem dumpsList_canonList : (l : List Config) → dumpsList (canonList l) = dumpsList l
  | [] => rfl
  | c :: cs => by
    simp only [canonList, dumpsList, dumps_canon c, dumpsList_canonList cs]

theorem dumpsEntries_canonEntries :
    (l : List (String × Config)) → dumpsEntries (canonEntries l) = dumpsEntries l
  | [] => rfl
  | (k, v) :: rest => by
    simp only [canonEntries, dumpsEntries, dumps_canon v, dumpsEntries_canonEntries rest]
end

/-- Serialization depends only on the canonical form. -/
theorem dumps_eq_of_sameKV {c₁ c₂ : Config} (h : SameKV c₁ c₂) :
    dumps c₁ = dumps c₂ := by
  rw [← dumps_canon c₁, ← dumps_canon c₂, h]

/-- Reordering the entries of a duplicate-free dict does not change its
canonical form: `SameKV` really is insensitive to key insertion order. -/
theorem sameKV_of_perm {l₁ l₂ : List (String × Config)}
    (hnd : (l₁.map Prod.fst).Nodup) (hp : l₁.Perm l₂) :
    SameKV (.dict l₁) (.dict l₂) := by
  unfold SameKV canon
  have hperm : (canonEntries l₁).Perm (canonEntries l₂) := by
    rw [canonEntries_eq_map, canonEntries_eq_map]
    exact hp.map _
  have hndc : ((canonEntries l₁).map Prod.fst).Nodup := by
    rw [canonEntries_eq_map]
    simpa using hnd
  congr 1
  -- both sorts are key-sorted permutations of the same duplicate-free list
  have hs₁ := List.sorted_insertionSort
    (fun (a b : String × Config) => strLeb a.1 b.1 = true) (canonEntries l₁)
  have hs₂ := List.sorted_insertionSort
    (fun (a b : String × Config) => strLeb a.1 b.1 = true) (canonEntries l₂)
  have hp₁ := List.perm_insertionSort
    (fun (a b : String × Config) => strLeb a.1 b.1 = true) (canonEntries l₁)
  have hp₂ := List.perm_insertionSort
    (fun (a b : String × Config) => strLeb a.1 b.1 = true) (canonEntries l₂)
  have hall : (sortPairs (canonEntries l₁)).Perm (sortPairs (canonEntries l₂)) :=
    (hp₁.trans hperm).trans hp₂.symm
  have hnd₁ : ((sortPairs (canonEntries l₁)).map Prod.fst).Nodup :=
    (hp₁.map Prod.fst).nodup_iff.mpr hndc
  have hnd₂ : ((sortPairs (canonEntries l₂)).map Prod.fst).Nodup :=
    ((hp₂.map Prod.fst).trans (hperm.map Prod.fst).symm).nodup_iff.mpr hndc
  have strict : ∀ (m : List (String × Config)),
      List.Sorted (fun a b => strLeb a.1 b.1 = true) m → (m.map Prod.fst).Nodup →
      List.Sorted (fun (a b : String × Config) => strLeb a.1 b.1 = true ∧ a.1 ≠ b.1) m := by
    intro m hs hnd'
    have hne : m.Pairwise (fun a b => a.1 ≠ b.1) := List.pairwise_map.mp hnd'
    exact hs.and hne
  exact List.eq_of_perm_of_sorted hall
    (strict _ hs₁ hnd₁) (strict _ hs₂ hnd₂)

/-! ## Backoff policy engine (`automation_utils.py`)

Delays are rationals (the Python floats involved in the claims are exact
small values).  The two `random.uniform` draws are injected as explicit
parameters `jitterFactor` (for the jitter branch) and `randValue` (the
uniform(base, 3*base) sample of the RANDOM strategy). -/

inductive RetryStrategy where
  | linear
  | exponential
  | fibonacci
  | random
  deriving DecidableEq

structure RetryConfig where
  max_attempts : Nat := 3
  base_delay : ℚ := 1
  max_delay : ℚ := 60
  strategy : RetryStrategy := .exponential
  backoff_multiplier : ℚ := 2
  jitter : Bool := true

/-- The Fibonacci list built by the FIBONACCI branch: it starts as `[1, 1]`
and the loop over `i in range(2, attempt + 1)` appends the sum of the last
two elements at each iteration. -/
def fibSeq : Nat → List ℚ
  | 0 => [1, 1]
  | 1 => [1, 1]
  | n + 2 =>
    let prev := fibSeq (n + 1)
    prev ++ [prev.getD (prev.length - 1) 0 + prev.getD (prev.length - 2) 0]

/-- Embedding of `calculate_retry_delay(attempt, config)`. -/
def calculate_retry_delay (attempt : Nat) (config : RetryConfig)
    (jitterFactor randValue : ℚ) : ℚ :=
  let delay : ℚ :=
    match config.strategy with
    | .linear => config.base_delay * attempt
    | .exponential => config.base_delay * config.backoff_multiplier ^ ((attempt : ℤ) - 1)
    | .fibonacci =>
      let fib_sequence := fibSeq attempt
      config.base_delay * fib_sequence.getD (min attempt (fib_sequence.length - 1)) 0
    | .random => randValue
  let delay := if config.jitter then delay * jitterFactor else delay
  min delay config.max_delay

/-- Reference Fibonacci numbers, zero-indexed with `fibQ 0 = fibQ 1 = 1`;
the spec's 1-indexed `fib` with `fib(1) = fib(2) = 1` is `fun k => fibQ (k - 1)`. -/
def fibQ : Nat → ℚ
  | 0 => 1
  | 1 => 1
  | n + 2 => fibQ n + fibQ (n + 1)

theorem fibSeq_eq_map : ∀ n : Nat, fibSeq (n + 1) = (List.range (n + 2)).map fibQ
  | 0 => rfl
  | n + 1 => by
    have ih := fibSeq_eq_map n
    have hlen : (fibSeq (n + 1)).length = n + 2 := by
      rw [ih]; simp
    have hget : ∀ i : Nat, i < n + 2 → (fibSeq (n + 1)).getD i 0 = fibQ i := by
      intro i hi
      rw [ih, List.getD_eq_getElem?_getD, List.getElem?_map, List.getElem?_range hi]
      rfl
    show fibSeq (n + 1) ++ _ = _
    rw [hlen]
    have h₁ : n + 2 - 1 = n + 1 := rfl
    have h₂ : n + 2 - 2 = n := rfl
    rw [h₁, h₂, hget (n + 1) (by omega), hget n (by omega)]
    rw [List.range_succ (n := n + 2), List.map_append, ih]
    simp only [List.map_cons, List.map_nil, List.append_cancel_left_eq,
      List.cons.injEq, and_true]
    show fibQ (n + 1) + fibQ n = fibQ (n + 2)
    rw [show fibQ (n + 2) = fibQ n + fibQ (n + 1) from rfl, add_comm]

theorem fibSeq_getD (n : Nat) (h : 1 ≤ n) :
    (fibSeq n).getD (min n ((fibSeq n).length - 1)) 0 = fibQ n := by
  obtain ⟨m, rfl⟩ := Nat.exists_eq_add_of_le h
  rw [Nat.add_comm 1 m, fibSeq_eq_map m]
  have hlen : ((List.range (m + 2)).map fibQ).length = m + 2 := by simp
  rw [hlen]
  have hmin : min (m + 1) (m + 2 - 1) = m + 1 := by omega
  rw [hmin, List.getD_eq_getElem?_getD, List.getElem?_map,
    List.getElem?_range (by omega : m + 1 < m + 2)]
  rfl

/-! ## Result cache (`automation_utils.py`, class `TaskCache`)

The cache directory is an association list from cache key to file contents:
`none` entries model files that exist but cannot be read/parsed (`json.load`
raising, which `get` absorbs as a miss without deleting).  The MD5 digest is
an injected parameter `md5hex`; the cache key is the digest of the combined
description/canonical-config string, so any digest function yields colliding
keys on colliding inputs. -/

structure CacheRecord where
  timestamp : Int
  task_description : String
  config : Config
  result : String

structure TaskCache where
  store : List (String × Option CacheRecord)
  ttl : Int

/-- Embedding of `TaskCache._get_cache_key`:
`md5(f"{task_description}_{json.dumps(config, sort_keys=True)}")`. -/
def _get_cache_key (md5hex : String → String) (task_description : String)
    (config : Config) : String :=
  md5hex (task_description ++ "_" ++ dumps config)

/-- Embedding of `TaskCache.get`: miss when the file is absent or unreadable;
an entry strictly older than the TTL is unlinked and reported as a miss. -/
def TaskCache.get (c : TaskCache) (md5hex : String → String)
    (task_description : String) (config : Config) (now : Int) :
    TaskCache × Option String :=
  let key := _get_cache_key md5hex task_description config
  match getA c.store key with
  | none => (c, none)
  | some none => (c, none)
  | some (some r) =>
    if now - r.timestamp > c.ttl then
      ({ c with store := delA c.store key }, none)
    else
      (c, some r.result)

/-! ## Configuration merging

Embeddings of the two merge routines the spec's merge rule is sourced to:
`merge_configs` in `automation_configs.py` (recursive at every depth) and the
override loop of `BrowserAutomationBackend._load_config` in `agents.py`
(one level of nesting, nested dicts merged via `dict.update`). -/

mutual
/-- Embedding of `merge_configs(base_config, override_config)`: each override
key is assigned, except that a dict-valued override key whose current value
in the accumulated result is also a dict is merged recursively. -/
def merge_configs : List (String × Config) → List (String × Config) →
    List (String × Config)
  | base, [] => base
  | base, (k, v) :: rest => merge_configs (setA base k (mergeValue (getA base k) v)) rest

/-- The value stored for one override key by `merge_configs`: recursive merge
when both the existing value and the override value are dicts, otherwise the
override value. -/
def mergeValue : Option Config → Config → Config
  | some (Config.dict bEntries), Config.dict oEntries =>
    Config.dict (merge_configs bEntries oEntries)
  | _, v => v
end

inductive PyError where
  | valueError (msg : String)
  | attributeError (msg : String)
  | duplicateTaskError
  deriving DecidableEq

/-- Embedding of Python `dict.update(other)`: every key of `other` is
assigned into the receiver, one level deep. -/
def dictUpdate (d other : List (String × Config)) : List (String × Config) :=
  other.foldl (fun acc p => setA acc p.1 p.2) d

/-- Embedding of the override loop of `_load_config`: a dict-valued override
key that exists in the defaults is merged with `dict.update` (one level; an
`AttributeError` if the default value is not a dict), every other key is
assigned wholesale. -/
def load_config_merge : List (String × Config) → List (String × Config) →
    Except PyError (List (String × Config))
  | dflt, [] => .ok dflt
  | dflt, (k, v) :: rest =>
    match v with
    | Config.dict vEntries =>
      match getA dflt k with
      | some (Config.dict dEntries) =>
        load_config_merge (setA dflt k (Config.dict (dictUpdate dEntries vEntries))) rest
      | some _ => .error (.attributeError "object has no attribute update")
      | none => load_config_merge (setA dflt k v) rest
    | _ => load_config_merge (setA dflt k v) rest

/-- Path lookup through nested dicts (`cfg[k1][k2]...`). -/
def getPath : Config → List String → Option Config
  | c, [] => some c
  | Config.dict entries, k :: rest =>
    match getA entries k with
    | some v => getPath v rest
    | none => none
  | _, _ :: _ => none

/-! ## Task lifecycle manager (`agents.py`, class `BrowserAutomationBackend`)

`datetime.now()` readings are integer clock values supplied by the caller;
the executor invocation `asyncio.wait_for(agent.run(), timeout=...)` is
replaced by an injected `ExecOutcome` (success payload, `asyncio.TimeoutError`,
or any other executor fault) together with the measured wall-clock duration.
Step callbacks only log and swallow their own faults, so they carry no state
and are not modeled.  The field `timeout_s` carries the merged
`config['performance']['timeout']` value used by `run_task`. -/

inductive TaskStatus where
  | pending
  | running
  | completed
  | failed
  | paused
  deriving DecidableEq

structure TaskStep where
  step_id : String
  action : String
  timestamp : Nat
  status : TaskStatus
  details : List (String × String)
  duration : Option ℚ := none
  error : Option String := none
  deriving DecidableEq

structure AutomationTask where
  task_id : String
  description : String
  status : TaskStatus
  created_at : Nat
  started_at : Option Nat := none
  completed_at : Option Nat := none
  steps : List TaskStep := []
  result : Option String := none
  error : Option String := none
  deriving DecidableEq

structure Metrics where
  total_tasks : Nat
  successful_tasks : Nat
  failed_tasks : Nat
  average_task_duration : ℚ
  deriving DecidableEq

structure Manager where
  tasks : List (String × AutomationTask)
  current_task : Option String
  performance_metrics : Metrics
  timeout_s : Nat
  deriving DecidableEq

/-- Embedding of `BrowserAutomationBackend.__init__`: empty task map, no
current task, zeroed metrics. -/
def mkManager (timeout_s : Nat) : Manager :=
  { tasks := [], current_task := none,
    performance_metrics :=
      { total_tasks := 0, successful_tasks := 0, failed_tasks := 0,
        average_task_duration := 0 },
    timeout_s := timeout_s }

/-- Embedding of `create_task(task_id, description)`: builds a PENDING task
and stores it under `task_id` unconditionally (`self.tasks[task_id] = task`).
The source method cannot raise, so the result is always `Except.ok`; the
`Except` shape is kept so that the spec's claimed `DuplicateTaskError`
behaviour is statable. -/
def create_task (m : Manager) (task_id description : String) (now : Nat) :
    Manager × Except PyError AutomationTask :=
  let task : AutomationTask :=
    { task_id := task_id, description := description, status := .pending,
      created_at := now }
  ({ m with tasks := setA m.tasks task_id task }, .ok task)

/-- Embedding of `_track_step`: appends a step to the current task (step ids
`step_{len+1}`); a no-op when no task is current.  Observer callbacks are
fire-and-forget and carry no state. -/
def _track_step (m : Manager) (now : Nat) (action : String)
    (details : List (String × String)) (status : TaskStatus)
    (error : Option String) : Manager :=
  match m.current_task with
  | none => m
  | some cid =>
    { m with tasks := updA m.tasks cid (fun t =>
        { t with steps := t.steps ++ [{
            step_id := "step_" ++ toString (t.steps.length + 1),
            action := action, timestamp := now, status := status,
            details := details, error := error }] }) }

/-- Injected outcome of the executor invocation. -/
inductive ExecOutcome where
  | success (result : String)
  | timeout
  | failure (msg : String)
  deriving DecidableEq

/-- The normalized envelope `run_task` returns. -/
structure RunEnvelope where
  task_id : String
  status : String
  result : Option String := none
  error : Option String := none
  duration : ℚ
  steps_count : Nat
  deriving DecidableEq

/-- Embedding of `_update_average_duration` (called after
`successful_tasks` has been incremented). -/
def _update_average_duration (metrics : Metrics) (duration : ℚ) : Metrics :=
  let n := metrics.successful_tasks
  if n = 1 then { metrics with average_task_duration := duration }
  else
    { metrics with average_task_duration :=
        (metrics.average_task_duration * ((n : ℚ) - 1) + duration) / (n : ℚ) }

def stepsCountAt (m : Manager) (task_id : String) : Nat :=
  match getA m.tasks task_id with
  | some t => t.steps.length
  | none => 0

/-- Embedding of `run_task(task_id, ...)`.  An unknown id raises
`ValueError` before any state is touched.  Otherwise the task is driven to
RUNNING, three setup steps are emitted, and the injected outcome decides the
path: success → COMPLETED with metrics update; `asyncio.TimeoutError` →
FAILED plus `task_timeout` step, then the re-raised `TimeoutError` is caught
by the outer handler which also emits `task_failed` and counts the failure;
any other fault → FAILED plus `task_failed` step.  The `finally` block
clears the current-task slot. -/
def run_task (m : Manager) (task_id : String) (outcome : ExecOutcome)
    (duration : ℚ) (now : Nat) : Manager × Except PyError RunEnvelope :=
  match getA m.tasks task_id with
  | none => (m, .error (.valueError ("Task " ++ task_id ++ " not found")))
  | some task =>
    let m := { m with current_task := some task_id }
    let m := { m with tasks := updA m.tasks task_id (fun t =>
      { t with status := .running, started_at := some now }) }
    let m := _track_step m now "task_started"
      [("task_id", task_id), ("description", task.description)] .completed none
    let m := _track_step m now "browser_created"
      [("config", "browser")] .completed none
    let m := _track_step m now "agent_created"
      [("max_steps", "performance.max_steps")] .completed none
    match outcome with
    | .success r =>
      let m := { m with tasks := updA m.tasks task_id (fun t =>
        { t with status := .completed, completed_at := some now,
                 result := some r }) }
      let m := _track_step m now "task_completed"
        [("duration", toString duration), ("result_type", "dict")] .completed none
      let metrics1 := { m.performance_metrics with
        total_tasks := m.performance_metrics.total_tasks + 1,
        successful_tasks := m.performance_metrics.successful_tasks + 1 }
      let m := { m with performance_metrics :=
        _update_average_duration metrics1 duration }
      let m := { m with current_task := none }
      (m, .ok { task_id := task_id, status := "completed", result := some r,
                duration := duration, steps_count := stepsCountAt m task_id })
    | .timeout =>
      let err := "Task " ++ task_id ++ " timed out after " ++
        toString m.timeout_s ++ "s"
      let m := { m with tasks := updA m.tasks task_id (fun t =>
        { t with status := .failed, error := some err }) }
      let m := _track_step m now "task_timeout"
        [("timeout", toString m.timeout_s)] .failed (some err)
      -- the raised TimeoutError lands in the outer `except Exception` handler
      let m := { m with tasks := updA m.tasks task_id (fun t =>
        { t with status := .failed, error := some err,
                 completed_at := some now }) }
      let m := _track_step m now "task_failed"
        [("error", err), ("duration", toString duration)] .failed (some err)
      let m := { m with performance_metrics :=
        { m.performance_metrics with
          total_tasks := m.performance_metrics.total_tasks + 1,
          failed_tasks := m.performance_metrics.failed_tasks + 1 } }
      let m := { m with current_task := none }
      (m, .ok { task_id := task_id, status := "failed", error := some err,
                duration := duration, steps_count := stepsCountAt m task_id })
    | .failure msg =>
      let m := { m with tasks := updA m.tasks task_id (fun t =>
        { t with status := .failed, error := some msg,
                 completed_at := some now }) }
      let m := _track_step m now "task_failed"
        [("error", msg), ("duration", toString duration)] .failed (some msg)
      let m := { m with performance_metrics :=
        { m.performance_metrics with
          total_tasks := m.performance_metrics.total_tasks + 1,
          failed_tasks := m.performance_metrics.failed_tasks + 1 } }
      let m := { m with current_task := none }
      (m, .ok { task_id := task_id, status := "failed", error := some msg,
                duration := duration, steps_count := stepsCountAt m task_id })

/-- Read-only projection returned by `get_task_status`. -/
inductive StatusResult where
  | notFound (error : String)
  | found (task_id : String) (status : TaskStatus) (description : String)
      (created_at : Nat) (started_at completed_at : Option Nat)
      (steps_count : Nat) (result : Option String) (error : Option String)
  deriving DecidableEq

/-- Embedding of `get_task_status`: unknown ids yield an error-tagged dict,
never a raise. -/
def get_task_status (m : Manager) (task_id : String) : StatusResult :=
  match getA m.tasks task_id with
  | none => .notFound ("Task " ++ task_id ++ " not found")
  | some t => .found task_id t.status t.description t.created_at t.started_at
      t.completed_at t.steps.length t.result t.error

/-- Embedding of `get_task_steps`: unknown ids yield the empty list. -/
def get_task_steps (m : Manager) (task_id : String) : List TaskStep :=
  match getA m.tasks task_id with
  | none => []
  | some t => t.steps

/-! Operation alphabet for reachability statements over a manager. -/

inductive Op where
  | createTask (id description : String) (now : Nat)
  | runTask (id : String) (outcome : ExecOutcome) (duration : ℚ) (now : Nat)
  | getStatus (id : String)
  | getSteps (id : String)

def Op.isCreate : Op → Bool
  | .createTask _ _ _ => true
  | _ => false

def applyOp (m : Manager) : Op → Manager
  | .createTask id description now => (create_task m id description now).1
  | .runTask id outcome duration now => (run_task m id outcome duration now).1
  | .getStatus _ => m
  | .getSteps _ => m

def runOps (m : Manager) (ops : List Op) : Manager := ops.foldl applyOp m

def statusOf (m : Manager) (id : String) : Option TaskStatus :=
  (getA m.tasks id).map (·.status)

/-! ## Process supervisor (`vnc_manager.py`, class `VNCManager`)

Each stage's `start_*` helper first probes liveness (already-running stages
are not respawned) and otherwise spawns the daemon and checks `poll()` after
the settle sleep; every exception is caught and turned into `False`.  Probe
and spawn outcomes are injected per stage. -/

structure StageEnv where
  running : Bool
  spawnOk : Bool
  deriving DecidableEq

/-- Common shape of `start_xvfb` / `start_fluxbox` / `start_vnc_server` /
`start_websockify`: `True` when the probe already reports live, else the
spawn-and-poll outcome. -/
def startStage (e : StageEnv) : Bool :=
  if e.running then true else e.spawnOk

structure VNCEnv where
  xvfb : StageEnv
  fluxbox : StageEnv
  vnc : StageEnv
  websockify : StageEnv
  deriving DecidableEq

inductive VNCStage where
  | xvfb
  | fluxbox
  | vnc_server
  | websockify
  deriving DecidableEq

/-- Embedding of `VNCManager.start`: returns the list of stages whose
`start_*` helper was invoked, in order, together with the outcome (`.error`
models the two `raise Exception(...)` sites). -/
def VNCManager.start (env : VNCEnv) : List VNCStage × Except String Bool :=
  let attempted := [VNCStage.xvfb]
  if startStage env.xvfb = false then
    (attempted, .error "Failed to start Xvfb")
  else
    -- fluxbox failure is only logged; the chain proceeds
    let attempted := attempted ++ [VNCStage.fluxbox]
    let attempted := attempted ++ [VNCStage.vnc_server]
    if startStage env.vnc = false then
      (attempted, .error "Failed to start VNC server")
    else
      -- websockify failure is only logged
      let attempted := attempted ++ [VNCStage.websockify]
      (attempted, .ok true)

/-! ## Claim formalizations (statements taken from the specification) -/

/-- Claim C1 as the spec states it: `createTask` yields a PENDING task on a
fresh id and fails with a `DuplicateTaskError` whenever the id is taken. -/
def ClaimC1 : Prop :=
  (∀ (m : Manager) (id desc : String) (now : Nat), getA m.tasks id = none →
    ∃ m' t, create_task m id desc now = (m', Except.ok t) ∧ t.status = .pending) ∧
  (∀ (m : Manager) (id desc : String) (now : Nat), (getA m.tasks id).isSome = true →
    ∃ e, (create_task m id desc now).2 = Except.error e)

/-- Claim C2 as the spec states it: over any sequence of manager operations
from a fresh manager, once a task's status has left PENDING no later
reachable state shows that task in PENDING again. -/
def ClaimC2 : Prop :=
  ∀ (timeout_s : Nat) (ops₁ ops₂ : List Op) (id : String) (st : TaskStatus),
    statusOf (runOps (mkManager timeout_s) ops₁) id = some st →
    st ≠ .pending →
    statusOf (runOps (runOps (mkManager timeout_s) ops₁) ops₂) id ≠ some .pending

/-- Claim C3 as the spec states it: `runTask` on an unknown id returns a
result to the caller (never raises). -/
def ClaimC3 : Prop :=
  ∀ (m : Manager) (id : String) (outcome : ExecOutcome) (dur : ℚ) (now : Nat),
    getA m.tasks id = none →
    ∃ env, (run_task m id outcome dur now).2 = Except.ok env

/-- Claim C5 as the spec states it: with strategy FIBONACCI, jitter disabled
and `max_delay` large enough not to clamp, the delay for attempt `n`
(1 ≤ n ≤ max_attempts) is `base × fib(n)` with `fib(1) = fib(2) = 1`,
i.e. `base * fibQ (n - 1)`. -/
def ClaimC5 : Prop :=
  ∀ (attempt : Nat) (config : RetryConfig) (jitterFactor randValue : ℚ),
    config.strategy = .fibonacci → config.jitter = false →
    1 ≤ attempt → attempt ≤ config.max_attempts →
    config.base_delay * fibQ attempt ≤ config.max_delay →
    config.base_delay * fibQ (attempt - 1) ≤ config.max_delay →
    calculate_retry_delay attempt config jitterFactor randValue =
      config.base_delay * fibQ (attempt - 1)

/-! ## Theorems -/

theorem statusOf_track_step (m : Manager) (now : Nat) (a : String)
    (d : List (String × String)) (st : TaskStatus) (e : Option String)
    (id : String) :
    statusOf (_track_step m now a d st e) id = statusOf m id := by
  unfold _track_step
  cases hc : m.current_task with
  | none => rfl
  | some cid =>
    simp only [statusOf]
    by_cases hid : cid = id
    · subst hid
      rw [getA_updA_self]
      cases getA m.tasks cid <;> rfl
    · rw [getA_updA_ne _ _ _ _ hid]

/-- Running, reading status or reading steps never writes PENDING: if the
task at `id` is not shown PENDING before such an operation, it is not shown
PENDING after it. -/
theorem statusOf_run_task_fst (m : Manager) (tid : String) (o : ExecOutcome)
    (dur : ℚ) (now : Nat) (id : String) :
    statusOf (run_task m tid o dur now).1 id = statusOf m id ∨
    statusOf (run_task m tid o dur now).1 id = some .completed ∨
    statusOf (run_task m tid o dur now).1 id = some .failed := by
  cases h : getA m.tasks tid with
  | none => left; simp [run_task, h]
  | some task =>
    by_cases hid : tid = id
    · subst hid
      cases o with
      | success r =>
        right; left
        simp [run_task, h, _track_step, statusOf, getA_updA_self]
      | timeout =>
        right; right
        simp [run_task, h, _track_step, statusOf, getA_updA_self]
      | failure msg =>
        right; right
        simp [run_task, h, _track_step, statusOf, getA_updA_self]
    · left
      cases o <;>
        simp [run_task, h, _track_step, statusOf, getA_updA_ne _ _ _ _ hid]

theorem applyOp_no_pending (m : Manager) (op : Op) (id : String)
    (hop : op.isCreate = false) (h : statusOf m id ≠ some .pending) :
    statusOf (applyOp m op) id ≠ some .pending := by
  cases op with
  | createTask i d n => simp [Op.isCreate] at hop
  | getStatus i => simpa [applyOp]
  | getSteps i => simpa [applyOp]
  | runTask tid o dur now =>
    rcases statusOf_run_task_fst m tid o dur now id with hh | hh | hh
    · simpa [applyOp, hh] using h
    · simp [applyOp, hh]
    · simp [applyOp, hh]

/-- Claim C2, counterexample: from a fresh manager, create task `t`, run it
to COMPLETED, then call `createTask` with the same id again — the manager
shows task `t` PENDING once more (the claimed monotonicity is violated). -/
theorem task_reenters_pending_counterexample : ¬ ClaimC2 := by
  intro hc
  exact hc 300 [.createTask "t" "demo" 0, .runTask "t" (.success "ok") 1 2]
    [.createTask "t" "demo" 3] "t" .completed (by decide) (by decide) (by decide)

/-- Claim C2 (corrected): `runTask`, `getStatus` and `getSteps` never move a
task back to PENDING over any operation sequence; only `createTask` writes
PENDING (and it does so even for an id whose task had already left PENDING,
by silently replacing the stored task — see the counterexample). -/
theorem no_pending_reentry_without_create (m : Manager) (ops : List Op)
    (id : String) (hops : ∀ op ∈ ops, op.isCreate = false)
    (h : statusOf m id ≠ some .pending) :
    statusOf (runOps m ops) id ≠ some .pending := by
  induction ops generalizing m with
  | nil => exact h
  | cons op rest ih =>
    exact ih (applyOp m op) (fun o ho => hops o (List.mem_cons_of_mem _ ho))
      (applyOp_no_pending m op id (hops op (List.mem_cons_self _ _)) h)

theorem no_pending_reentry_without_create_witness :
    statusOf (runOps
      (runOps (mkManager 300)
        [.createTask "t" "demo" 0, .runTask "t" (.success "ok") 1 2])
      [.runTask "t" (.failure "boom") 1 3, .getStatus "t", .getSteps "t",
       .runTask "t" (.success "ok") 1 4]) "t" ≠ some .pending :=
  no_pending_reentry_without_create
    (runOps (mkManager 300)
      [.createTask "t" "demo" 0, .runTask "t" (.success "ok") 1 2])
    [.runTask "t" (.failure "boom") 1 3, .getStatus "t", .getSteps "t",
     .runTask "t" (.success "ok") 1 4] "t"
    (by simp [Op.isCreate]) (by decide)

/-- Claim C1, counterexample: with task `t` already present, `create_task`
succeeds and silently replaces the stored task instead of failing with a
`DuplicateTaskError`. -/
theorem create_task_duplicate_counterexample : ¬ ClaimC1 := by
  intro hc
  obtain ⟨e, he⟩ := hc.2 ((create_task (mkManager 300) "t" "demo" 0).1)
    "t" "again" 1 (by decide)
  simp [create_task] at he

/-- Claim C1 (corrected): `create_task` always succeeds, returning a PENDING
task with the given id and description; the new task is stored under the id,
replacing any task previously there. -/
theorem create_task_pending_overwrite (m : Manager) (id desc : String)
    (now : Nat) :
    ∃ m' t, create_task m id desc now = (m', Except.ok t) ∧
      t.status = .pending ∧ t.task_id = id ∧ t.description = desc ∧
      getA m'.tasks id = some t :=
  ⟨_, _, rfl, rfl, rfl, rfl, getA_setA_self _ _ _⟩

/-- Claim C3, counterexample: `run_task` on an unknown id yields
`Except.error`, i.e. the Python method raises `ValueError` instead of
returning a not-found indicator. -/
theorem run_task_unknown_counterexample : ¬ ClaimC3 := by
  intro hc
  obtain ⟨env, he⟩ := hc (mkManager 300) "missing" (.success "r") 0 0 rfl
  simp [run_task, getA, mkManager] at he

/-- Claim C3 (corrected): `run_task` on an unknown id raises
`ValueError("Task {id} not found")` and leaves the manager untouched (the
read-only accessors `get_task_status` / `get_task_steps` are the ones that
return not-found indicators without raising). -/
theorem run_task_unknown_raises (m : Manager) (id : String)
    (outcome : ExecOutcome) (dur : ℚ) (now : Nat)
    (h : getA m.tasks id = none) :
    run_task m id outcome dur now =
      (m, Except.error (.valueError ("Task " ++ id ++ " not found"))) := by
  unfold run_task
  rw [h]

theorem run_task_unknown_raises_witness :
    run_task (mkManager 300) "x" (.success "r") 0 0 =
      (mkManager 300, Except.error (.valueError "Task x not found")) :=
  run_task_unknown_raises (mkManager 300) "x" (.success "r") 0 0 rfl

/-- Claim C9 (confirmed): in `VNCManager.start`, a hard-dependency failure
(Xvfb or the VNC server) raises and halts the chain — no later stage's
starter is invoked — while a soft-dependency failure (fluxbox, websockify)
is only logged: the outcome and the set of attempted stages are independent
of the fluxbox and websockify results. -/
theorem vnc_start_dependency_policy (env : VNCEnv) :
    (startStage env.xvfb = false →
      VNCManager.start env = ([.xvfb], Except.error "Failed to start Xvfb")) ∧
    (startStage env.xvfb = true → startStage env.vnc = false →
      VNCManager.start env = ([.xvfb, .fluxbox, .vnc_server],
        Except.error "Failed to start VNC server")) ∧
    (startStage env.xvfb = true → startStage env.vnc = true →
      VNCManager.start env =
        ([.xvfb, .fluxbox, .vnc_server, .websockify], Except.ok true)) := by
  refine ⟨fun h₁ => ?_, fun h₁ h₂ => ?_, fun h₁ h₂ => ?_⟩
  · simp [VNCManager.start, h₁]
  · simp [VNCManager.start, h₁, h₂]
  · simp [VNCManager.start, h₁, h₂]

theorem vnc_start_dependency_policy_witness :
    VNCManager.start
      { xvfb := ⟨false, true⟩, fluxbox := ⟨false, false⟩,
        vnc := ⟨true, false⟩, websockify := ⟨false, false⟩ } =
      ([.xvfb, .fluxbox, .vnc_server, .websockify], Except.ok true) :=
  (vnc_start_dependency_policy _).2.2 rfl rfl

theorem timeout_msg_split (id : String) (x : String) :
    "Task " ++ id ++ " timed out after " ++ x ++ "s" =
      ("Task " ++ id ++ " ") ++ "timed out" ++ (" after " ++ x ++ "s") := by
  simp only [String.append_assoc]
  rw [show (" timed out after " : String) = " " ++ ("timed out" ++ " after ") from rfl]
  simp only [String.append_assoc]

/-- Claim C4 (confirmed): when the executor invocation times out, the task
ends FAILED, its recorded error contains the text "timed out", and the run
appends exactly one step whose action tag is `task_timeout`. -/
theorem run_task_timeout_behaviour (m : Manager) (task_id : String)
    (t : AutomationTask) (duration : ℚ) (now : Nat)
    (h : getA m.tasks task_id = some t) :
    ∃ t', getA (run_task m task_id .timeout duration now).1.tasks task_id = some t' ∧
      t'.status = .failed ∧
      t'.error = some ("Task " ++ task_id ++ " timed out after " ++
        toString m.timeout_s ++ "s") ∧
      (∃ pre post, t'.error = some (pre ++ "timed out" ++ post)) ∧
      (t'.steps.filter (fun s => s.action = "task_timeout")).length =
        (t.steps.filter (fun s => s.action = "task_timeout")).length + 1 := by
  simp only [run_task, h, _track_step, getA_updA_self, Option.map_some]
  refine ⟨_, rfl, rfl, rfl, ⟨"Task " ++ task_id ++ " ",
    " after " ++ toString m.timeout_s ++ "s", by rw [timeout_msg_split]⟩, ?_⟩
  simp [List.filter_append]

/-- Claim C10 (confirmed): a `run_task` run that ends FAILED (timeout or any
other executor fault) leaves `average_task_duration` and `successful_tasks`
unchanged and increments `total_tasks` and `failed_tasks` by one. -/
theorem run_task_failure_metrics (m : Manager) (task_id : String)
    (t : AutomationTask) (outcome : ExecOutcome) (duration : ℚ) (now : Nat)
    (h : getA m.tasks task_id = some t)
    (hfail : outcome = .timeout ∨ ∃ msg, outcome = .failure msg) :
    (run_task m task_id outcome duration now).1.performance_metrics.average_task_duration =
      m.performance_metrics.average_task_duration ∧
    (run_task m task_id outcome duration now).1.performance_metrics.total_tasks =
      m.performance_metrics.total_tasks + 1 ∧
    (run_task m task_id outcome duration now).1.performance_metrics.failed_tasks =
      m.performance_metrics.failed_tasks + 1 ∧
    (run_task m task_id outcome duration now).1.performance_metrics.successful_tasks =
      m.performance_metrics.successful_tasks := by
  rcases hfail with rfl | ⟨msg, rfl⟩ <;>
    simp [run_task, h, _track_step]

theorem run_task_timeout_behaviour_witness :
    ∃ t', getA (run_task (create_task (mkManager 300) "t" "demo" 0).1 "t"
        .timeout 1 5).1.tasks "t" = some t' ∧
      t'.status = .failed ∧
      t'.error = some ("Task " ++ "t" ++ " timed out after " ++
        toString (create_task (mkManager 300) "t" "demo" 0).1.timeout_s ++ "s") ∧
      (∃ pre post, t'.error = some (pre ++ "timed out" ++ post)) ∧
      (t'.steps.filter (fun s => s.action = "task_timeout")).length =
        ((({ task_id := "t", description := "demo", status := .pending,
             created_at := 0 } : AutomationTask)).steps.filter
          (fun s => s.action = "task_timeout")).length + 1 :=
  run_task_timeout_behaviour (create_task (mkManager 300) "t" "demo" 0).1 "t"
    { task_id := "t", description := "demo", status := .pending, created_at := 0 }
    1 5 rfl

theorem run_task_failure_metrics_witness :
    (run_task (create_task (mkManager 300) "t" "demo" 0).1 "t"
        (.failure "boom") 2 5).1.performance_metrics.average_task_duration =
      (create_task (mkManager 300) "t" "demo" 0).1.performance_metrics.average_task_duration ∧
    (run_task (create_task (mkManager 300) "t" "demo" 0).1 "t"
        (.failure "boom") 2 5).1.performance_metrics.total_tasks =
      (create_task (mkManager 300) "t" "demo" 0).1.performance_metrics.total_tasks + 1 ∧
    (run_task (create_task (mkManager 300) "t" "demo" 0).1 "t"
        (.failure "boom") 2 5).1.performance_metrics.failed_tasks =
      (create_task (mkManager 300) "t" "demo" 0).1.performance_metrics.failed_tasks + 1 ∧
    (run_task (create_task (mkManager 300) "t" "demo" 0).1 "t"
        (.failure "boom") 2 5).1.performance_metrics.successful_tasks =
      (create_task (mkManager 300) "t" "demo" 0).1.performance_metrics.successful_tasks :=
  run_task_failure_metrics (create_task (mkManager 300) "t" "demo" 0).1 "t"
    { task_id := "t", description := "demo", status := .pending, created_at := 0 }
    (.failure "boom") 2 5 rfl (Or.inr ⟨"boom", rfl⟩)

/-! C5: Fibonacci retry delays -/

theorem calc_delay_fib_eq (attempt : Nat) (config : RetryConfig)
    (jitterFactor randValue : ℚ) (hs : config.strategy = .fibonacci)
    (hj : config.jitter = false) (h1 : 1 ≤ attempt)
    (hclamp : config.base_delay * fibQ attempt ≤ config.max_delay) :
    calculate_retry_delay attempt config jitterFactor randValue =
      config.base_delay * fibQ attempt := by
  simp only [calculate_retry_delay, hs, hj, Bool.false_eq_true, if_false]
  rw [fibSeq_getD attempt h1]
  exact min_eq_left hclamp

/-- Claim C5, counterexample: at attempt 2 with base 1 the code computes
delay 2 (it indexes its Fibonacci list one step ahead), not the claimed
`base × fib(2) = 1`. -/
theorem fibonacci_delay_counterexample : ¬ ClaimC5 := by
  intro hc
  have heval := calc_delay_fib_eq 2
    { max_attempts := 5, base_delay := 1, max_delay := 1000,
      strategy := .fibonacci, backoff_multiplier := 2, jitter := false } 1 1
    rfl rfl (by norm_num) (by norm_num [fibQ])
  have hclaim := hc 2
    { max_attempts := 5, base_delay := 1, max_delay := 1000,
      strategy := .fibonacci, backoff_multiplier := 2, jitter := false } 1 1
    rfl rfl (by norm_num) (by norm_num) (by norm_num [fibQ]) (by norm_num [fibQ])
  rw [heval] at hclaim
  norm_num [fibQ] at hclaim

/-- Claim C5 (corrected): for FIBONACCI strategy with jitter disabled and no
clamping, the delay at attempt `n ≥ 1` is `base × fibQ n`, i.e. the spec's
`base × fib(n+1)` — one Fibonacci step ahead of the claimed `base × fib(n)`.
With base 1 the delays for attempts 1..5 are 1, 2, 3, 5, 8. -/
theorem fibonacci_delay_off_by_one (attempt : Nat) (config : RetryConfig)
    (jitterFactor randValue : ℚ) (hs : config.strategy = .fibonacci)
    (hj : config.jitter = false) (h1 : 1 ≤ attempt)
    (_h2 : attempt ≤ config.max_attempts)
    (hclamp : config.base_delay * fibQ attempt ≤ config.max_delay) :
    calculate_retry_delay attempt config jitterFactor randValue =
      config.base_delay * fibQ attempt :=
  calc_delay_fib_eq attempt config jitterFactor randValue hs hj h1 hclamp

theorem fibonacci_delay_off_by_one_witness :
    calculate_retry_delay 3
      { max_attempts := 5, base_delay := 1, max_delay := 1000,
        strategy := .fibonacci, backoff_multiplier := 2, jitter := false } 1 7 =
      1 * fibQ 3 :=
  fibonacci_delay_off_by_one 3
    { max_attempts := 5, base_delay := 1, max_delay := 1000,
      strategy := .fibonacci, backoff_multiplier := 2, jitter := false } 1 7
    rfl rfl (by norm_num) (by norm_num) (by norm_num [fibQ])

/-! C6: cache fingerprints collide on order-insensitive equal configs -/

/-- Claim C6 (confirmed): two configurations that are equal as key-value
structures at every nesting depth (`SameKV`, i.e. equal canonical forms,
which is invariant under entry reordering by `sameKV_of_perm`) produce the
same cache fingerprint for the same description, for any digest function. -/
theorem cache_key_order_invariant (md5hex : String → String)
    (task_description : String) (c₁ c₂ : Config) (h : SameKV c₁ c₂) :
    _get_cache_key md5hex task_description c₁ =
      _get_cache_key md5hex task_description c₂ := by
  unfold _get_cache_key
  rw [dumps_eq_of_sameKV h]

theorem cache_key_order_invariant_witness :
    _get_cache_key (fun s => s) "task"
        (.dict [("a", .num 1), ("b", .dict [("x", .bool true), ("y", .null)])]) =
      _get_cache_key (fun s => s) "task"
        (.dict [("b", .dict [("y", .null), ("x", .bool true)]), ("a", .num 1)]) :=
  cache_key_order_invariant (fun s => s) "task"
    (.dict [("a", .num 1), ("b", .dict [("x", .bool true), ("y", .null)])])
    (.dict [("b", .dict [("y", .null), ("x", .bool true)]), ("a", .num 1)]) rfl

/-! C7: lazy TTL eviction on read -/

/-- Claim C7 (confirmed): a `get` that finds an entry strictly older than
the TTL deletes the entry's backing record and reports a miss (assuming the
store's file names are unique, as they are on a filesystem). -/
theorem cache_get_expired_evicts (c : TaskCache) (md5hex : String → String)
    (task_description : String) (config : Config) (now : Int) (r : CacheRecord)
    (hnd : (c.store.map Prod.fst).Nodup)
    (hrec : getA c.store (_get_cache_key md5hex task_description config) =
      some (some r))
    (hexp : now - r.timestamp > c.ttl) :
    (TaskCache.get c md5hex task_description config now).2 = none ∧
    getA (TaskCache.get c md5hex task_description config now).1.store
      (_get_cache_key md5hex task_description config) = none := by
  simp only [TaskCache.get, hrec, if_pos hexp]
  exact ⟨trivial, getA_delA_self _ _ hnd⟩

theorem cache_get_expired_evicts_witness :
    (TaskCache.get ⟨[("d_null", some ⟨0, "d", .null, "res"⟩)], 10⟩
      (fun s => s) "d" .null 100).2 = none ∧
    getA (TaskCache.get ⟨[("d_null", some ⟨0, "d", .null, "res"⟩)], 10⟩
      (fun s => s) "d" .null 100).1.store
      (_get_cache_key (fun s => s) "d" .null) = none :=
  cache_get_expired_evicts ⟨[("d_null", some ⟨0, "d", .null, "res"⟩)], 10⟩
    (fun s => s) "d" .null 100 ⟨0, "d", .null, "res"⟩
    (by decide) rfl (by decide)

/-! C8: configuration merge depth -/

theorem merge_configs_nil (b : List (String × Config)) : merge_configs b [] = b := rfl

theorem merge_configs_cons (b : List (String × Config)) (k : String) (v : Config)
    (rest : List (String × Config)) :
    merge_configs b ((k, v) :: rest) =
      merge_configs (setA b k (mergeValue (getA b k) v)) rest := rfl

theorem merge_configs_absent : ∀ (o b : List (String × Config)) (k : String),
    getA o k = none → getA (merge_configs b o) k = getA b k := by
  intro o
  induction o with
  | nil => intro b k _; rw [merge_configs_nil]
  | cons p rest ih =>
    obtain ⟨k', v⟩ := p
    intro b k h
    simp only [getA] at h
    by_cases hk : k' = k
    · rw [if_pos hk] at h; exact absurd h (by simp)
    · rw [if_neg hk] at h
      rw [merge_configs_cons, ih _ k h, getA_setA_ne _ _ _ _ hk]

theorem merge_configs_descent : ∀ (o b : List (String × Config)) (k : String)
    (od bd : List (String × Config)),
    (o.map Prod.fst).Nodup → getA o k = some (Config.dict od) →
    getA b k = some (Config.dict bd) →
    getA (merge_configs b o) k = some (Config.dict (merge_configs bd od)) := by
  intro o
  induction o with
  | nil => intro b k od bd _ ho _; simp [getA] at ho
  | cons p rest ih =>
    obtain ⟨k', v⟩ := p
    intro b k od bd hnd ho hb
    simp only [List.map_cons, List.nodup_cons] at hnd
    simp only [getA] at ho
    by_cases hk : k' = k
    · subst hk
      rw [if_pos rfl] at ho
      obtain rfl : v = Config.dict od := Option.some.inj ho
      rw [merge_configs_cons, hb]
      simp only [mergeValue]
      have hrest : getA rest k' = none := getA_of_not_mem_keys rest k' hnd.1
      rw [merge_configs_absent rest _ k' hrest, getA_setA_self]
    · rw [if_neg hk] at ho
      rw [merge_configs_cons]
      exact ih _ k od bd hnd.2 ho (by rw [getA_setA_ne _ _ _ _ hk]; exact hb)

theorem load_config_merge_absent : ∀ (ov dflt r : List (String × Config))
    (k : String), load_config_merge dflt ov = .ok r → getA ov k = none →
    getA r k = getA dflt k := by
  intro ov
  induction ov with
  | nil =>
    intro dflt r k hok _
    simp only [load_config_merge] at hok
    injection hok with h
    rw [← h]
  | cons p rest ih =>
    obtain ⟨k', v⟩ := p
    intro dflt r k hok h
    simp only [getA] at h
    by_cases hk : k' = k
    · rw [if_pos hk] at h; exact absurd h (by simp)
    · rw [if_neg hk] at h
      cases v with
      | dict ve =>
        simp only [load_config_merge] at hok
        cases hb : getA dflt k' with
        | none =>
          rw [hb] at hok
          rw [ih _ r k hok h, getA_setA_ne _ _ _ _ hk]
        | some w =>
          cases w with
          | dict de =>
            rw [hb] at hok
            rw [ih _ r k hok h, getA_setA_ne _ _ _ _ hk]
          | str s => rw [hb] at hok; exact absurd hok (by simp)
          | num n => rw [hb] at hok; exact absurd hok (by simp)
          | bool b' => rw [hb] at hok; exact absurd hok (by simp)
          | null => rw [hb] at hok; exact absurd hok (by simp)
          | arr items => rw [hb] at hok; exact absurd hok (by simp)
      | str s =>
        simp only [load_config_merge] at hok
        rw [ih _ r k hok h, getA_setA_ne _ _ _ _ hk]
      | num n =>
        simp only [load_config_merge] at hok
        rw [ih _ r k hok h, getA_setA_ne _ _ _ _ hk]
      | bool b' =>
        simp only [load_config_merge] at hok
        rw [ih _ r k hok h, getA_setA_ne _ _ _ _ hk]
      | null =>
        simp only [load_config_merge] at hok
        rw [ih _ r k hok h, getA_setA_ne _ _ _ _ hk]
      | arr items =>
        simp only [load_config_merge] at hok
        rw [ih _ r k hok h, getA_setA_ne _ _ _ _ hk]

/-- Claim C8, counterexample: `_load_config`'s merge loses keys at nesting
depth 2 — overriding `browser.window_size.width` deletes
`browser.window_size.height`, which is absent from the override and present
in the defaults, from the result. -/
theorem load_config_merge_shallow_counterexample :
    ∃ r, load_config_merge
        [("browser", Config.dict [("window_size", Config.dict
            [("width", Config.num 1920), ("height", Config.num 1080)]),
          ("headless", Config.bool false)])]
        [("browser", Config.dict [("window_size", Config.dict
            [("width", Config.num 800)])])] = .ok r ∧
      getPath (Config.dict [("browser", Config.dict [("window_size", Config.dict
          [("width", Config.num 800)])])])
        ["browser", "window_size", "height"] = none ∧
      getPath (Config.dict [("browser", Config.dict [("window_size", Config.dict
          [("width", Config.num 1920), ("height", Config.num 1080)]),
        ("headless", Config.bool false)])])
        ["browser", "window_size", "height"] = some (Config.num 1080) ∧
      getPath (Config.dict r) ["browser", "window_size", "height"] = none :=
  ⟨_, rfl, rfl, rfl, rfl⟩

/-- Claim C8 (corrected): `merge_configs` does merge recursively at
unbounded depth — keys absent from the override are preserved and dict-dict
collisions recurse — but the manager's `_load_config` merge guarantees
preservation only at the top level: at depth ≥ 2 a dict-valued override
replaces the nested mapping wholesale (see the counterexample). -/
theorem config_merge_amended (b o : List (String × Config)) (k : String) :
    (getA o k = none → getA (merge_configs b o) k = getA b k) ∧
    (∀ od bd, (o.map Prod.fst).Nodup → getA o k = some (Config.dict od) →
      getA b k = some (Config.dict bd) →
      getA (merge_configs b o) k = some (Config.dict (merge_configs bd od))) ∧
    (∀ r, load_config_merge b o = .ok r → getA o k = none →
      getA r k = getA b k) :=
  ⟨merge_configs_absent o b k,
   fun od bd hnd ho hb => merge_configs_descent o b k od bd hnd ho hb,
   fun r hok h => load_config_merge_absent o b r k hok h⟩

theorem config_merge_amended_witness :
    getA (merge_configs
      [("browser", Config.dict [("window_size", Config.dict
          [("width", Config.num 1920), ("height", Config.num 1080)]),
        ("headless", Config.bool false)])]
      [("browser", Config.dict [("window_size", Config.dict
          [("width", Config.num 800)])])]) "browser" =
      some (Config.dict (merge_configs
        [("window_size", Config.dict
            [("width", Config.num 1920), ("height", Config.num 1080)]),
         ("headless", Config.bool false)]
        [("window_size", Config.dict [("width", Config.num 800)])])) :=
  (config_merge_amended
    [("browser", Config.dict [("window_size", Config.dict
        [("width", Config.num 1920), ("height", Config.num 1080)]),
      ("headless", Config.bool false)])]
    [("browser", Config.dict [("window_size", Config.dict
        [("width", Config.num 800)])])] "browser").2.1
    [("window_size", Config.dict [("width", Config.num 800)])]
    [("window_size", Config.dict
        [("width", Config.num 1920), ("height", Config.num 1080)]),
     ("headless", Config.bool false)]
    (by decide) rfl rfl

end AiAgent
